import Mathlib

/-!
Verification development for the calibration-tuning repository.

This file gives a shallow embedding, in Lean, of the parts of the code that
the checked properties are about:

* `src/llm/datasets/data_collator.py` — `LabeledStringDataCollator.__call__`
  (batch tokenization with the target-masking label computation);
* `src/llm/models/peft/temperature_scaling.py` — the temperature-scaled
  forward pass and the temperature-only checkpoint filter;
* `src/llm/utils/uncertainty_tuner.py` — `UncertaintyTuner.__init__`,
  `compute_unc_loss`, `compute_kl_loss`, `compute_loss` and `_save`;
* `src/llm/eval/eos.py` — the metric-assembly tail of `evaluate_via_eos`
  with its AUROC failure recovery;
* `src/llm/utils/evaluation.py` — the argument assertions of
  `evaluate_dataset`.

External collaborators (the HuggingFace tokenizer, the model forward pass,
sklearn's `roc_auc_score`, the third-party `calibration` routine, the
dataset registry) are modelled as parameters, exactly at the interface the
code uses.  The module `llm/datasets/llm_utils.py` is not part of the
sources; the few pieces of it the code under scrutiny needs (`LMText`,
`IGNORE_LABEL`) are modelled from the specification and marked as such.

Machine floats are modelled as real numbers; tensors as (nested) lists.
-/

/- ------------------------------------------------------------------ -/
/- Text records and the ignore sentinel (from `llm/datasets/llm_utils.py`,
   absent from the sources).                                           -/
/- ------------------------------------------------------------------ -/

/-- Modelled from the spec: `IGNORE_LABEL`, the sentinel written into
`labels` for every position that is not part of the target completion
(`llm/datasets/llm_utils.py` is missing from the sources).  The usual
HuggingFace value `-100` is used; no theorem depends on the exact value,
only on it being negative while token ids are non-negative. -/
def IGNORE_LABEL : Int := -100

/-- Modelled from the spec: the Text Record (`LMText` of
`llm/datasets/llm_utils.py`, missing from the sources).  Fields per the
spec's data model: `prompt`, `context`, `target_prompt`, `target`,
`output`. -/
structure LMText where
  prompt : String := ""
  context : String := ""
  target_prompt : String := ""
  target : Option String := none
  output : Option String := none

/-- Modelled from the spec: serialization of a Text Record is the
concatenation `prompt + context + target_prompt + (target or output or "")`. -/
def LMText.toStr (t : LMText) : String :=
  t.prompt ++ t.context ++ t.target_prompt ++ t.target.getD (t.output.getD "")

/-- Removing the `target` key from a record, as in
`{k: v for k, v in instance.items() if k != self.target_name}`. -/
def LMText.dropTarget (t : LMText) : LMText :=
  { prompt := t.prompt, context := t.context, target_prompt := t.target_prompt,
    target := none, output := t.output }

/- ------------------------------------------------------------------ -/
/- The tokenizer collaborator.                                         -/
/- ------------------------------------------------------------------ -/

/-- The tokenizer collaborator: an encoding function from strings to
token-id sequences, a pad token id, and `model_max_length`.  The collator
invokes it with `padding=True, truncation=True, max_length=model_max_length,
return_length=True`; `padding_side="right"` per `create_tokenizer` in
`llm/models/llama.py`. -/
structure TokenizerCfg where
  tok : String → List Int
  padId : Int
  model_max_length : Nat

/-- Encoding one string with `truncation=True, max_length=model_max_length`. -/
def encodeOne (cfg : TokenizerCfg) (s : String) : List Int :=
  (cfg.tok s).take cfg.model_max_length

/-- Width of a padded batch: the longest sequence length (`padding=True`
pads to the longest member of the batch). -/
def batchWidth (seqs : List (List Int)) : Nat :=
  (seqs.map List.length).foldr Nat.max 0

/-- Right-padding one sequence to width `w` with the pad id. -/
def padTo (padId : Int) (w : Nat) (s : List Int) : List Int :=
  s ++ List.replicate (w - s.length) padId

/-- The batch encoding returned by the tokenizer: padded `input_ids`, the
matching `attention_mask`, and the per-example true token length
(`return_length=True`). -/
structure BatchEncoding where
  input_ids : List (List Int)
  attention_mask : List (List Nat)
  length : List Nat

/-- The tokenizer call made by the collator. -/
def hfTokenize (cfg : TokenizerCfg) (texts : List String) : BatchEncoding :=
  let seqs := texts.map (encodeOne cfg)
  let w := batchWidth seqs
  { input_ids := seqs.map (padTo cfg.padId w)
  , attention_mask := seqs.map (fun s => List.replicate s.length 1 ++ List.replicate (w - s.length) 0)
  , length := seqs.map List.length }

/- ------------------------------------------------------------------ -/
/- `LabeledStringDataCollator.__call__` (`llm/datasets/data_collator.py`). -/
/- ------------------------------------------------------------------ -/

/-- Python slice-stop normalization: the number of leading positions
selected by `row[:k]` on a row of width `w`, for a possibly negative `k`
(the source writes `labels[i, :-l]`). -/
def pySliceStop (w : Nat) (k : Int) : Nat :=
  if 0 ≤ k then min k.toNat w else w - min (-k).toNat w

/-- The slice assignment `labels[i, :stop] = IGNORE_LABEL` applied to a
clone of the row. -/
def setIgnoreFront (row : List Int) (stop : Nat) : List Int :=
  (row.take stop).map (fun _ => IGNORE_LABEL) ++ row.drop stop

/-- What the collator returns: `input_ids`, `attention_mask` and, when the
records carry targets, `labels` (the tokenizer's `length` entry is popped
before returning). -/
structure CollatorOutput where
  input_ids : List (List Int)
  attention_mask : List (List Nat)
  labels : Option (List (List Int)) := none

/-- The label computation of the collator: for each row, mask with
`IGNORE_LABEL` the positions `[:-l]` where `l = input_length - un_input_length`
(the loop `for i, l in enumerate(input_lengths - un_input_lengths)`). -/
def collatorLabels (rows : List (List Int)) (diffs : List Int) : List (List Int) :=
  List.zipWith (fun row d => setIgnoreFront row (pySliceStop row.length (-d))) rows diffs

/-- `LabeledStringDataCollator.__call__`: tokenize the serialized records;
if the first record has a `target` key, tokenize again without targets and
derive `labels` from the length differences, writing into a clone of
`input_ids`. -/
def LabeledStringDataCollator (cfg : TokenizerCfg) (instances : List LMText) : CollatorOutput :=
  let inputs := hfTokenize cfg (instances.map LMText.toStr)
  if ((instances.headD {}).target).isSome then
    let un := hfTokenize cfg (instances.map (fun i => (LMText.dropTarget i).toStr))
    let diffs := List.zipWith (fun (a b : Nat) => (a : Int) - (b : Int)) inputs.length un.length
    { input_ids := inputs.input_ids
    , attention_mask := inputs.attention_mask
    , labels := some (collatorLabels inputs.input_ids diffs) }
  else
    { input_ids := inputs.input_ids
    , attention_mask := inputs.attention_mask
    , labels := none }

/-- C7 — For every batch of records, the `input_ids` and `attention_mask`
returned by the collator are exactly the (padded) tokenization of the
serialized records, and they are the same whether or not the labels branch
executes: the label computation only adds the `labels` entry, writing into a
clone. -/
theorem collator_labels_additive (cfg : TokenizerCfg) (instances : List LMText) :
    (LabeledStringDataCollator cfg instances).input_ids
        = (hfTokenize cfg (instances.map LMText.toStr)).input_ids
    ∧ (LabeledStringDataCollator cfg instances).attention_mask
        = (hfTokenize cfg (instances.map LMText.toStr)).attention_mask := by
  unfold LabeledStringDataCollator
  constructor <;> (split <;> rfl)

/- ------------------------------------------------------------------ -/
/- C1: the label span of the collator.                                 -/
/- ------------------------------------------------------------------ -/

lemma batchWidth_mem_le (seqs : List (List Int)) (s : List Int) (hs : s ∈ seqs) :
    s.length ≤ batchWidth seqs := by
  induction seqs with
  | nil => cases hs
  | cons a t ih =>
    rcases List.mem_cons.mp hs with rfl | h
    · exact Nat.le_max_left _ _
    · exact Nat.le_trans (ih h) (Nat.le_max_right _ _)

lemma padTo_length (padId : Int) (w : Nat) (s : List Int) (h : s.length ≤ w) :
    (padTo padId w s).length = w := by
  simp [padTo]; omega

lemma padTo_mem (padId : Int) (w : Nat) (s : List Int) (x : Int) (hx : x ∈ padTo padId w s) :
    x ∈ s ∨ x = padId := by
  simp only [padTo, List.mem_append, List.mem_replicate] at hx
  rcases hx with h | ⟨_, h⟩
  · exact Or.inl h
  · exact Or.inr h

lemma setIgnoreFront_length (row : List Int) (stop : Nat) :
    (setIgnoreFront row stop).length = row.length := by
  simp [setIgnoreFront]; omega

lemma takeWhile_append_all (p : Int → Bool) (a b : List Int) (h : ∀ x ∈ a, p x = true) :
    (a ++ b).takeWhile p = a ++ b.takeWhile p := by
  induction a with
  | nil => rfl
  | cons x t ih =>
    have hpx : p x = true := h x (List.mem_cons_self _ _)
    simp only [List.cons_append, List.takeWhile_cons, hpx, if_true]
    rw [ih (fun y hy => h y (List.mem_cons_of_mem _ hy))]

lemma pySliceStop_neg (w : Nat) (d : Int) (h1 : 1 ≤ d) (h2 : d ≤ (w : Int)) :
    pySliceStop w (-d) = w - d.toNat := by
  unfold pySliceStop
  rw [if_neg (by omega)]
  simp only [neg_neg]
  have hle : d.toNat ≤ w := by omega
  omega

lemma setIgnoreFront_spec (row : List Int) (tlen : Nat)
    (htl : 1 ≤ tlen) (hle : tlen ≤ row.length)
    (hmem : ∀ x ∈ row, 0 ≤ x) :
    (setIgnoreFront row (row.length - tlen)).countP (fun x => x != IGNORE_LABEL) = tlen
    ∧ ((setIgnoreFront row (row.length - tlen)).takeWhile
        (fun x => x == IGNORE_LABEL)).length = row.length - tlen := by
  have hfront : ∀ x ∈ (row.take (row.length - tlen)).map (fun _ => IGNORE_LABEL),
      x = IGNORE_LABEL := by
    intro x hx
    rcases List.mem_map.mp hx with ⟨_, _, rfl⟩
    rfl
  have hback : ∀ x ∈ row.drop (row.length - tlen), 0 ≤ x := by
    intro x hx
    exact hmem x (List.mem_of_mem_drop hx)
  have hbacklen : (row.drop (row.length - tlen)).length = tlen := by
    rw [List.length_drop]; omega
  constructor
  · rw [setIgnoreFront, List.countP_append]
    have h0 : ((row.take (row.length - tlen)).map (fun _ => IGNORE_LABEL)).countP
        (fun x => x != IGNORE_LABEL) = 0 := by
      rw [List.countP_eq_zero]
      intro a ha
      rw [hfront a ha]
      simp
    have h1 : (row.drop (row.length - tlen)).countP (fun x => x != IGNORE_LABEL)
        = (row.drop (row.length - tlen)).length := by
      rw [List.countP_eq_length]
      intro a ha
      have := hback a ha
      simp only [bne_iff_ne, ne_eq, IGNORE_LABEL]
      omega
    rw [h0, h1, hbacklen]
    omega
  · rw [setIgnoreFront]
    rw [takeWhile_append_all _ _ _ (by
      intro x hx
      rw [hfront x hx]
      simp)]
    have hempty : (row.drop (row.length - tlen)).takeWhile (fun x => x == IGNORE_LABEL) = [] := by
      cases hdrop : row.drop (row.length - tlen) with
      | nil => rfl
      | cons y rest =>
        have hy : 0 ≤ y := by
          apply hback
          rw [hdrop]
          exact List.mem_cons_self _ _
        rw [List.takeWhile_cons, if_neg (by simp only [beq_iff_eq, IGNORE_LABEL]; omega)]
    rw [hempty, List.append_nil, List.length_map, List.length_take]
    omega

lemma collator_input_ids_eq_map (cfg : TokenizerCfg) (instances : List LMText) :
    (LabeledStringDataCollator cfg instances).input_ids
      = instances.map (fun inst =>
          padTo cfg.padId (batchWidth (instances.map (fun j => encodeOne cfg j.toStr)))
            (encodeOne cfg inst.toStr)) := by
  rw [(collator_labels_additive cfg instances).1]
  simp only [hfTokenize, List.map_map]
  exact List.map_congr_left (fun a _ => rfl)

lemma collator_labels_eq_map (cfg : TokenizerCfg) (instances : List LMText)
    (h : ((instances.headD {}).target).isSome) :
    (LabeledStringDataCollator cfg instances).labels
      = some (instances.map (fun inst =>
          let w := batchWidth (instances.map (fun j => encodeOne cfg j.toStr))
          setIgnoreFront (padTo cfg.padId w (encodeOne cfg inst.toStr))
            (pySliceStop (padTo cfg.padId w (encodeOne cfg inst.toStr)).length
              (-(((encodeOne cfg inst.toStr).length : Int)
                  - ((encodeOne cfg (LMText.dropTarget inst).toStr).length : Int)))))) := by
  unfold LabeledStringDataCollator
  rw [if_pos h]
  simp only [hfTokenize, collatorLabels, List.map_map]
  rw [List.zipWith_map, List.zipWith_same, List.zipWith_map, List.zipWith_same]
  rfl

/-- C1 (amended) — For every batch of records that all carry a target, whenever
the tokenizer produces non-negative ids, the pad id is non-negative, and the
tokenized lengths add up across the target boundary with the target
contributing at least one token, the collator's `labels` tensor has the shape
of `input_ids`, and for each example the non-ignore positions number exactly
the tokens contributed by the target (full-sequence length minus
without-target length), while the `IGNORE_LABEL` positions form a prefix
whose length is the padded row width minus that target token count. -/
theorem collator_label_span (cfg : TokenizerCfg) (instances : List LMText)
    (hids : ∀ s : String, ∀ x ∈ cfg.tok s, 0 ≤ x)
    (hpad : 0 ≤ cfg.padId)
    (hhead : ((instances.headD {}).target).isSome)
    (hadd : ∀ inst ∈ instances,
        (encodeOne cfg inst.toStr).length
          = (encodeOne cfg (LMText.dropTarget inst).toStr).length
            + (encodeOne cfg (inst.target.getD "")).length
        ∧ 1 ≤ (encodeOne cfg (inst.target.getD "")).length) :
    ∃ labels,
      (LabeledStringDataCollator cfg instances).labels = some labels
      ∧ labels.map List.length = (LabeledStringDataCollator cfg instances).input_ids.map List.length
      ∧ ∀ (i : Nat) (inst : LMText) (lrow : List Int) (t : String),
          instances[i]? = some inst → labels[i]? = some lrow →
          inst.target = some t →
          lrow.countP (fun x => x != IGNORE_LABEL) = (encodeOne cfg t).length
          ∧ (lrow.takeWhile (fun x => x == IGNORE_LABEL)).length
              = lrow.length - (encodeOne cfg t).length := by
  refine ⟨_, collator_labels_eq_map cfg instances hhead, ?_, ?_⟩
  · rw [collator_input_ids_eq_map, List.map_map, List.map_map]
    exact List.map_congr_left (fun inst _ => setIgnoreFront_length _ _)
  · intro i inst lrow t hi hl ht
    simp only [List.getElem?_map, hi, Option.map_some', Option.some.injEq] at hl
    subst hl
    have hinst : inst ∈ instances := by
      rcases List.getElem?_eq_some.mp hi with ⟨hlt, hget⟩
      exact hget ▸ List.getElem_mem hlt
    obtain ⟨haddi, htli⟩ := hadd inst hinst
    rw [ht] at haddi htli
    simp only [Option.getD_some] at haddi htli
    set w := batchWidth (instances.map (fun j => encodeOne cfg j.toStr)) with hw
    set s := encodeOne cfg inst.toStr with hs
    set tl := (encodeOne cfg t).length with htldef
    have hsw : s.length ≤ w := by
      apply batchWidth_mem_le
      exact List.mem_map.mpr ⟨inst, hinst, rfl⟩
    have hrowlen : (padTo cfg.padId w s).length = w := padTo_length _ _ _ hsw
    have hstop : pySliceStop (padTo cfg.padId w s).length
        (-(((s.length : Nat) : Int)
            - (((encodeOne cfg (LMText.dropTarget inst).toStr).length : Nat) : Int)))
        = (padTo cfg.padId w s).length - tl := by
      have hdiff : (((s.length : Nat) : Int)
          - (((encodeOne cfg (LMText.dropTarget inst).toStr).length : Nat) : Int))
          = (tl : Int) := by omega
      rw [hdiff, hrowlen, pySliceStop_neg w (tl : Int) (by omega) (by omega)]
      simp
    have hmemrow : ∀ x ∈ padTo cfg.padId w s, 0 ≤ x := by
      intro x hx
      rcases padTo_mem _ _ _ _ hx with hxs | rfl
      · exact hids inst.toStr x (List.mem_of_mem_take hxs)
      · exact hpad
    have hspec := setIgnoreFront_spec (padTo cfg.padId w s) tl htli (by omega) hmemrow
    rw [hstop]
    exact ⟨hspec.1, by rw [hspec.2, setIgnoreFront_length]⟩

/-- A concrete character-level tokenizer used to evaluate the collator on
explicit inputs: every character becomes one token (its code point), pad id
`0`, maximal length `100`. -/
def charTokCfg : TokenizerCfg :=
  { tok := fun s => s.data.map (fun c => (c.toNat : Int)), padId := 0, model_max_length := 100 }

/-- A concrete record: the full serialization "abc" tokenizes to 3 tokens,
the without-target serialization "ab" to 2, so the target contributes 1. -/
def charInst : LMText := { context := "ab", target := some "c" }

/-- C1 (counterexample) — The claim that the ignored positions form a prefix
whose length equals (full-sequence token length) − (without-target token
length) is false: on the record "ab" + target "c" the collator masks a
prefix of length 2 (the without-target span), while the length difference is
1. -/
theorem collator_ignored_run_counterexample :
    (LabeledStringDataCollator charTokCfg [charInst]).labels
        = some [[IGNORE_LABEL, IGNORE_LABEL, 99]]
    ∧ ((([[IGNORE_LABEL, IGNORE_LABEL, 99]] : List (List Int)).getD 0 []).takeWhile
          (fun x => x == IGNORE_LABEL)).length = 2
    ∧ (encodeOne charTokCfg charInst.toStr).length
        - (encodeOne charTokCfg (LMText.dropTarget charInst).toStr).length = 1
    ∧ (2 : Nat) ≠ 1 := by
  refine ⟨by decide, by decide, by decide, by decide⟩

/-- A concrete two-record batch whose per-example tokenized lengths differ
(5 tokens for "ab:cd", 2 for "wu"), so batch padding is exercised. -/
def charBatch : List LMText :=
  [ { context := "ab", target_prompt := ":", target := some "cd" }
  , { context := "w", target := some "u" } ]

/-- Witness for `collator_label_span` at a concrete two-record batch with
differing per-example tokenized lengths. -/
theorem collator_label_span_witness :
    ∃ labels,
      (LabeledStringDataCollator charTokCfg charBatch).labels = some labels
      ∧ labels.map List.length
          = (LabeledStringDataCollator charTokCfg charBatch).input_ids.map List.length
      ∧ ∀ (i : Nat) (inst : LMText) (lrow : List Int) (t : String),
          charBatch[i]? = some inst → labels[i]? = some lrow →
          inst.target = some t →
          lrow.countP (fun x => x != IGNORE_LABEL) = (encodeOne charTokCfg t).length
          ∧ (lrow.takeWhile (fun x => x == IGNORE_LABEL)).length
              = lrow.length - (encodeOne charTokCfg t).length :=
  collator_label_span charTokCfg charBatch
    (by
      intro s x hx
      rcases List.mem_map.mp hx with ⟨c, _, rfl⟩
      exact Int.natCast_nonneg _)
    (by decide)
    (by decide)
    (by decide)

/- ------------------------------------------------------------------ -/
/- Temperature scaling (`llm/models/peft/temperature_scaling.py`).     -/
/- ------------------------------------------------------------------ -/

/-- `F.softplus`, applied to the scalar `temperature` parameter. -/
noncomputable def softplus (x : ℝ) : ℝ := Real.log (1 + Real.exp x)

/-- `TemperatureScaledLlamaForCausalLM.forward`: the base model's logits,
divided elementwise by `T = softplus(temperature)` exactly when
`scale_temp=True`; returned unchanged when `scale_temp=False`. -/
noncomputable def temperatureScaledForward (baseLogits : List (List ℝ))
    (temperature : ℝ) (scale_temp : Bool) : List (List ℝ) :=
  if scale_temp then
    baseLogits.map (fun row => row.map (fun z => z / softplus temperature))
  else baseLogits

/-- Largest entry of a logit row (helper for the greedy prediction). -/
noncomputable def maxVal : List ℝ → ℝ
  | [] => 0
  | x :: xs => max x (maxVal xs)

/-- The greedy prediction `logits.argmax(dim=-1)`: index of the first
maximal entry of the row. -/
noncomputable def idxOfMax : List ℝ → Nat
  | [] => 0
  | [_] => 0
  | x :: y :: xs => if x < maxVal (y :: xs) then idxOfMax (y :: xs) + 1 else 0

lemma softplus_pos (x : ℝ) : 0 < softplus x := by
  have h : (1 : ℝ) < 1 + Real.exp x := by linarith [Real.exp_pos x]
  exact Real.log_pos h

lemma maxVal_map_div (l : List ℝ) (T : ℝ) (hT : 0 < T) :
    maxVal (l.map (fun z => z / T)) = maxVal l / T := by
  induction l with
  | nil => simp [maxVal]
  | cons x xs ih =>
    simp only [List.map_cons, maxVal, ih]
    rcases le_total x (maxVal xs) with h | h
    · rw [max_eq_right h, max_eq_right ((div_le_div_right hT).mpr h)]
    · rw [max_eq_left h, max_eq_left ((div_le_div_right hT).mpr h)]

lemma idxOfMax_map_div (l : List ℝ) (T : ℝ) (hT : 0 < T) :
    idxOfMax (l.map (fun z => z / T)) = idxOfMax l := by
  induction l with
  | nil => rfl
  | cons x xs ih =>
    cases xs with
    | nil => rfl
    | cons y ys =>
      simp only [List.map_cons] at ih ⊢
      simp only [idxOfMax]
      rw [← List.map_cons (fun z => z / T) y ys, maxVal_map_div _ _ hT]
      simp only [div_lt_div_right hT, List.map_cons] at ih ⊢
      rw [ih]

/-- C9 — Temperature scaling never changes greedy predictions: with
`scale_temp=False` the forward pass returns the base logits unchanged; with
`scale_temp=True` it returns them divided elementwise by
`softplus(temperature)`, a strictly positive scalar, so the per-position
argmax over the vocabulary is identical with and without scaling. -/
theorem temperature_scaling_preserves_argmax (baseLogits : List (List ℝ))
    (temperature : ℝ) :
    temperatureScaledForward baseLogits temperature false = baseLogits
    ∧ temperatureScaledForward baseLogits temperature true
        = baseLogits.map (fun row => row.map (fun z => z / softplus temperature))
    ∧ 0 < softplus temperature
    ∧ (temperatureScaledForward baseLogits temperature true).map idxOfMax
        = baseLogits.map idxOfMax := by
  refine ⟨rfl, rfl, softplus_pos temperature, ?_⟩
  show (baseLogits.map fun row => row.map fun z => z / softplus temperature).map idxOfMax
      = baseLogits.map idxOfMax
  rw [List.map_map]
  exact List.map_congr_left
    (fun row _ => idxOfMax_map_div row _ (softplus_pos temperature))

/- ------------------------------------------------------------------ -/
/- The uncertainty tuner (`llm/utils/uncertainty_tuner.py`).           -/
/- ------------------------------------------------------------------ -/

/-- `UncertaintyTuner.Args`: the fields the tuner adds on top of the HF
`TrainingArguments` collaborator, with their source defaults. -/
structure TunerArgs where
  query_format : String := "roman_choice"
  ref_adapter_name : String := "_ref"
  unc_label_smoothing : ℝ := 0
  kl_type : String := "jsd"
  kl_decay : ℝ := 0
  scale_temp : Bool := false

/-- Observable effects on the model object: adapter selection
(`model.set_adapter`, global mutable state on the model) and forward
passes, recording which adapter was active and whether gradients were
enabled (`torch.inference_mode` disables them). -/
inductive MEvent where
  | setAdapter (name : String)
  | forwardPass (adapter : String) (gradEnabled : Bool)
deriving DecidableEq

/-- The model's mutable adapter state together with an event log. -/
structure ModelState where
  activeAdapter : String
  log : List MEvent

/-- Errors the tuner raises during a step. -/
inductive TunerError where
  | notImplementedError
deriving DecidableEq

/-- `softmax(dim=-1)` over one vocabulary row. -/
noncomputable def softmaxR (l : List ℝ) : List ℝ :=
  l.map (fun z => Real.exp z / (l.map Real.exp).sum)

/-- One term of the Categorical KL divergence, with the convention of
`torch.distributions.kl_divergence` that a zero-probability token of the
first distribution contributes 0. -/
noncomputable def klTerm (p q : ℝ) : ℝ :=
  if p = 0 then 0 else p * Real.log (p / q)

/-- `kl_divergence(Categorical(p), Categorical(q))` at one position. -/
noncomputable def klDiv (p q : List ℝ) : ℝ := (List.zipWith klTerm p q).sum

/-- The midpoint mixture `(probs + ref_probs) / 2` at one position. -/
noncomputable def midMix (p q : List ℝ) : List ℝ :=
  List.zipWith (fun a b => (a + b) / 2) p q

/-- The selected per-position divergence vector of one example:
reverse KL `kl(p, p_ref)`, forward KL `kl(p_ref, p)`, or for `jsd` the
average `(kl(p, p_mix) + kl(p_ref, p_mix)) / 2` with the midpoint mixture. -/
noncomputable def klPerExample (ty : String) (pEx pRefEx : List (List ℝ)) : List ℝ :=
  if ty = "reverse_kl" then List.zipWith klDiv pEx pRefEx
  else if ty = "forward_kl" then List.zipWith klDiv pRefEx pEx
  else List.zipWith
    (fun p q => (klDiv p (midMix p q) + klDiv q (midMix p q)) / 2) pEx pRefEx

/-- `(kl_loss * loss_mask).sum(dim=-1)` for one example: each position's
divergence times the `labels != IGNORE_LABEL` indicator, summed. -/
noncomputable def maskedSum (kl : List ℝ) (labels : List Int) : ℝ :=
  (List.zipWith (fun k (l : Int) => k * (if l = IGNORE_LABEL then 0 else 1)) kl labels).sum

/-- The divergence pipeline of `compute_kl_loss` on a batch: shift the
labels (`labels[..., 1:]`), drop the last logit position
(`logits[..., :-1, :]`), softmax every position of both adapters' logits,
take the selected per-position divergence, mask it to completion tokens,
sum per example and average over the batch (`.mean(dim=0)`). -/
noncomputable def klLossValue (ty : String) (curLogits refLogits : List (List (List ℝ)))
    (labels : List (List Int)) : ℝ :=
  let probs := curLogits.map (fun ex => ex.dropLast.map softmaxR)
  let refProbs := refLogits.map (fun ex => ex.dropLast.map softmaxR)
  let shifted := labels.map (List.drop 1)
  let perEx := List.zipWith
    (fun (pr : List (List ℝ) × List (List ℝ)) lb => maskedSum (klPerExample ty pr.1 pr.2) lb)
    (probs.zip refProbs) shifted
  perEx.sum / perEx.length

/-- `UncertaintyTuner.compute_kl_loss`: inside `torch.inference_mode()`
(gradients disabled), swap the active adapter to the reference adapter, run
the reference forward pass, and swap back to "default"; then compute the
selected divergence, raising `NotImplementedError` for any unsupported
`kl_type`.  The model forward is the collaborator `modelLogits` (adapter
name to batch logits); `outputsLogits` are the current-adapter outputs the
caller passed in. -/
noncomputable def compute_kl_loss (args : TunerArgs)
    (modelLogits : String → List (List (List ℝ)))
    (outputsLogits : List (List (List ℝ)))
    (labels : List (List Int)) (st : ModelState) :
    Except TunerError ℝ × ModelState :=
  let st1 : ModelState :=
    { activeAdapter := args.ref_adapter_name
    , log := st.log ++ [MEvent.setAdapter args.ref_adapter_name] }
  let refLogits := modelLogits args.ref_adapter_name
  let st2 : ModelState :=
    { st1 with log := st1.log ++ [MEvent.forwardPass st1.activeAdapter false] }
  let st3 : ModelState :=
    { activeAdapter := "default", log := st2.log ++ [MEvent.setAdapter "default"] }
  if args.kl_type = "reverse_kl" ∨ args.kl_type = "forward_kl" ∨ args.kl_type = "jsd" then
    (Except.ok (klLossValue args.kl_type outputsLogits refLogits labels), st3)
  else
    (Except.error TunerError.notImplementedError, st3)

/-- Mean of a list of reals (`reduction="mean"` / `.mean(dim=0)`). -/
noncomputable def meanR (l : List ℝ) : ℝ := l.sum / l.length

/-- One row of `F.cross_entropy` with label smoothing ε over K classes:
`(1-ε)·(logZ − z_y) + ε·(logZ − mean z)`. -/
noncomputable def crossEntropyRow (logits : List ℝ) (y : Nat) (smoothing : ℝ) : ℝ :=
  let logZ := Real.log ((logits.map Real.exp).sum)
  (1 - smoothing) * (logZ - logits.getD y 0) + smoothing * (logZ - meanR logits)

/-- `F.cross_entropy(logits, targets, label_smoothing=ε)` with the default
mean reduction over the batch. -/
noncomputable def crossEntropy (rows : List (List ℝ)) (ys : List Nat) (smoothing : ℝ) : ℝ :=
  meanR (List.zipWith (fun r y => crossEntropyRow r y smoothing) rows ys)

/-- The label derivation
`(unc_y.unsqueeze(-1) == query_token_vec).long().argmax(dim=-1)`: the index
of the first entry of `query_token_vec` equal to the extracted answer
token, and 0 when none matches (argmax of an all-zero indicator row). -/
def derive_unc_label (vec : List Nat) (y : Nat) : Nat :=
  if y ∈ vec then vec.indexOf y else 0

/-- The confidence-query data: `prepare_query` and `extract_qa_exact` live
in `llm/datasets/llm_utils.py` (not part of the sources), so their outputs
are taken as inputs: the query answer-token vocabulary `query_token_vec`,
the per-example extracted answer token `unc_y`, and the per-example
vocabulary logits at the answer position. -/
structure QueryOutputs where
  query_token_vec : List Nat
  unc_y : List Nat
  unc_logits : List (Nat → ℝ)

/-- `UncertaintyTuner.compute_unc_loss`: restrict the answer-position
logits to the query token vocabulary (`unc_logits[:, query_token_vec]`),
derive the binary label, and take the label-smoothed cross entropy. -/
noncomputable def compute_unc_loss (args : TunerArgs) (q : QueryOutputs) : ℝ :=
  crossEntropy
    (q.unc_logits.map (fun row => q.query_token_vec.map row))
    (q.unc_y.map (derive_unc_label q.query_token_vec))
    args.unc_label_smoothing

/-- `UncertaintyTuner.compute_loss`: the parent trainer's supervised
forward (its loss is discarded: `_, outputs = super().compute_loss(...)`),
the confidence-query forward of `compute_unc_loss` (both on the currently
active adapter, gradients enabled), then
`total_loss = unc_loss + kl_decay * kl_loss` where `kl_loss` is 0 when
`scale_temp` is set (no `compute_kl_loss` call) and the consistency loss
otherwise. -/
noncomputable def compute_loss (args : TunerArgs) (q : QueryOutputs)
    (modelLogits : String → List (List (List ℝ)))
    (outputsLogits : List (List (List ℝ)))
    (labels : List (List Int)) (st : ModelState) :
    Except TunerError ℝ × ModelState :=
  let st0 : ModelState := { st with log := st.log ++ [MEvent.forwardPass st.activeAdapter true] }
  let unc_loss := compute_unc_loss args q
  let st1 : ModelState := { st0 with log := st0.log ++ [MEvent.forwardPass st0.activeAdapter true] }
  match (if args.scale_temp then (Except.ok (0 : ℝ), st1)
         else compute_kl_loss args modelLogits outputsLogits labels st1) with
  | (Except.ok kl, st2) => (Except.ok (unc_loss + args.kl_decay * kl), st2)
  | (Except.error e, st2) => (Except.error e, st2)

/-- The tuner object: its configured `Args` (the trainer internals belong
to the external HF `Trainer` collaborator). -/
structure UncertaintyTuner where
  args : TunerArgs

/-- Configuration errors that construction could raise (there are none in
the source). -/
inductive ConstructionError where

/-- `UncertaintyTuner.__init__`: forwards to the HF `Trainer` constructor
with the supervised data collator and stores the validation/test splits.
It performs no validation of any `Args` field — in particular none of
`kl_type`. -/
def UncertaintyTuner.init (args : TunerArgs) : Except ConstructionError UncertaintyTuner :=
  Except.ok { args := args }

lemma klDiv_self (p : List ℝ) : klDiv p p = 0 := by
  rw [klDiv, List.zipWith_same]
  apply List.sum_eq_zero
  intro x hx
  rcases List.mem_map.mp hx with ⟨a, _, rfl⟩
  rw [klTerm]
  by_cases h : a = 0
  · rw [if_pos h]
  · rw [if_neg h, div_self h, Real.log_one, mul_zero]

lemma midMix_self (p : List ℝ) : midMix p p = p := by
  rw [midMix, List.zipWith_same]
  calc p.map (fun a => (a + a) / 2) = p.map id :=
        List.map_congr_left (fun a _ => by show (a + a) / 2 = a; ring)
    _ = p := List.map_id p

lemma klPerExample_self (ty : String) (pEx : List (List ℝ)) :
    ∀ v ∈ klPerExample ty pEx pEx, v = 0 := by
  intro v hv
  rw [klPerExample] at hv
  split_ifs at hv
  · rw [List.zipWith_same] at hv
    rcases List.mem_map.mp hv with ⟨p, _, rfl⟩
    exact klDiv_self p
  · rw [List.zipWith_same] at hv
    rcases List.mem_map.mp hv with ⟨p, _, rfl⟩
    exact klDiv_self p
  · rw [List.zipWith_same] at hv
    rcases List.mem_map.mp hv with ⟨p, _, rfl⟩
    rw [midMix_self, klDiv_self]
    ring

lemma maskedSum_zero (kl : List ℝ) (labels : List Int) (h : ∀ v ∈ kl, v = 0) :
    maskedSum kl labels = 0 := by
  induction kl generalizing labels with
  | nil => rw [maskedSum]; simp
  | cons k ks ih =>
    cases labels with
    | nil => rw [maskedSum]; simp
    | cons l ls =>
      rw [maskedSum, List.zipWith_cons_cons, List.sum_cons]
      rw [h k (List.mem_cons_self _ _), zero_mul, zero_add]
      exact ih ls (fun v hv => h v (List.mem_cons_of_mem _ hv))

lemma mem_zipWith_imp {α β γ : Type} (f : α → β → γ) (as : List α) (bs : List β) (x : γ)
    (hx : x ∈ List.zipWith f as bs) : ∃ a ∈ as, ∃ b ∈ bs, x = f a b := by
  induction as generalizing bs with
  | nil => simp at hx
  | cons a as' ih =>
    cases bs with
    | nil => simp at hx
    | cons b bs' =>
      rw [List.zipWith_cons_cons] at hx
      rcases List.mem_cons.mp hx with rfl | h
      · exact ⟨a, List.mem_cons_self _ _, b, List.mem_cons_self _ _, rfl⟩
      · rcases ih bs' h with ⟨a', ha', b', hb', rfl⟩
        exact ⟨a', List.mem_cons_of_mem _ ha', b', List.mem_cons_of_mem _ hb', rfl⟩

/-- C3 — When the current-adapter and reference-adapter next-token
distributions are identical at every position, each of the three selectable
divergences (reverse KL, forward KL, JSD against the midpoint mixture)
evaluates to 0 at every position of every example — so in particular at the
masked completion positions — and the consistency loss (the masked
per-token divergence summed per example and averaged over the batch)
equals 0. -/
theorem kl_divergences_zero_on_identical (ty : String)
    (hty : ty = "reverse_kl" ∨ ty = "forward_kl" ∨ ty = "jsd")
    (curLogits refLogits : List (List (List ℝ))) (labels : List (List Int))
    (hident : curLogits.map (fun ex => ex.dropLast.map softmaxR)
        = refLogits.map (fun ex => ex.dropLast.map softmaxR)) :
    (∀ pr ∈ (curLogits.map (fun ex => ex.dropLast.map softmaxR)).zip
        (refLogits.map (fun ex => ex.dropLast.map softmaxR)),
        ∀ v ∈ klPerExample ty pr.1 pr.2, v = 0)
    ∧ klLossValue ty curLogits refLogits labels = 0 := by
  have hzip : ∀ pr ∈ (curLogits.map (fun ex => ex.dropLast.map softmaxR)).zip
      (refLogits.map (fun ex => ex.dropLast.map softmaxR)), pr.1 = pr.2 := by
    intro pr hpr
    rw [← hident, List.zip_eq_zipWith, List.zipWith_same] at hpr
    rcases List.mem_map.mp hpr with ⟨a, _, rfl⟩
    rfl
  refine ⟨?_, ?_⟩
  · intro pr hpr v hv
    have h12 := hzip pr hpr
    rw [← h12] at hv
    exact klPerExample_self ty pr.1 v hv
  · simp only [klLossValue]
    have hall : ∀ x ∈ List.zipWith
        (fun (pr : List (List ℝ) × List (List ℝ)) lb =>
          maskedSum (klPerExample ty pr.1 pr.2) lb)
        ((curLogits.map (fun ex => ex.dropLast.map softmaxR)).zip
          (refLogits.map (fun ex => ex.dropLast.map softmaxR)))
        (labels.map (List.drop 1)), x = 0 := by
      intro x hx
      rcases mem_zipWith_imp _ _ _ _ hx with ⟨pr, hpr, lb, _, rfl⟩
      have h12 := hzip pr hpr
      apply maskedSum_zero
      intro v hv
      rw [← h12] at hv
      exact klPerExample_self ty pr.1 v hv
    rw [List.sum_eq_zero hall, zero_div]

/-- Witness for `kl_divergences_zero_on_identical`: a concrete one-example
batch with two positions and a two-token vocabulary, identical logits under
both adapters, divergence type `jsd`. -/
theorem kl_divergences_zero_witness :
    (("jsd" : String) = "reverse_kl" ∨ ("jsd" : String) = "forward_kl"
        ∨ ("jsd" : String) = "jsd")
    ∧ klLossValue "jsd" [[[0, 1], [2, 3]]] [[[0, 1], [2, 3]]] [[0, 5]] = 0 :=
  ⟨Or.inr (Or.inr rfl),
   (kl_divergences_zero_on_identical "jsd" (Or.inr (Or.inr rfl))
      [[[0, 1], [2, 3]]] [[[0, 1], [2, 3]]] [[0, 5]] rfl).2⟩

/-- C4 — `compute_kl_loss` preserves the adapter-selection invariant: the
reference-adapter forward pass runs with gradients disabled (inference
mode), and on every exit path — including the `NotImplementedError` one —
the model's active adapter has been restored to "default" before the
divergence is computed and before control returns; the only events of the
call are the swap to the reference adapter, its gradient-free forward pass,
and the swap back to "default". -/
theorem kl_adapter_discipline (args : TunerArgs)
    (modelLogits : String → List (List (List ℝ)))
    (outputsLogits : List (List (List ℝ)))
    (labels : List (List Int)) (st : ModelState) :
    (compute_kl_loss args modelLogits outputsLogits labels st).2.activeAdapter = "default"
    ∧ (compute_kl_loss args modelLogits outputsLogits labels st).2.log
        = st.log ++ [MEvent.setAdapter args.ref_adapter_name,
                     MEvent.forwardPass args.ref_adapter_name false,
                     MEvent.setAdapter "default"] := by
  unfold compute_kl_loss
  split <;> simp

/-- C6 (counterexample) — Constructing the uncertainty tuner with the
unsupported divergence type "bogus" succeeds: `__init__` performs no
`kl_type` validation, so no error is raised at construction. -/
theorem init_accepts_bad_kl_type_counterexample :
    UncertaintyTuner.init { kl_type := "bogus" }
      = Except.ok { args := { kl_type := "bogus" } } := rfl

/-- C6 (amended) — An unsupported divergence type is not rejected at
construction: `__init__` succeeds for every `kl_type`; the
`NotImplementedError` is raised only when a training step first computes
the consistency loss (`compute_kl_loss`), i.e. on the first step with
`scale_temp` disabled. -/
theorem unsupported_kl_type_raises_at_first_step (args : TunerArgs)
    (h : ¬ (args.kl_type = "reverse_kl" ∨ args.kl_type = "forward_kl"
        ∨ args.kl_type = "jsd"))
    (modelLogits : String → List (List (List ℝ)))
    (outputsLogits : List (List (List ℝ)))
    (labels : List (List Int)) (st : ModelState) :
    UncertaintyTuner.init args = Except.ok { args := args }
    ∧ (compute_kl_loss args modelLogits outputsLogits labels st).1
        = Except.error TunerError.notImplementedError := by
  refine ⟨rfl, ?_⟩
  unfold compute_kl_loss
  rw [if_neg h]

/-- Witness for `unsupported_kl_type_raises_at_first_step` at the concrete
divergence type "bogus". -/
theorem unsupported_kl_type_witness :
    (¬ (("bogus" : String) = "reverse_kl" ∨ ("bogus" : String) = "forward_kl"
        ∨ ("bogus" : String) = "jsd"))
    ∧ UncertaintyTuner.init { kl_type := "bogus" }
        = Except.ok { args := { kl_type := "bogus" } }
    ∧ (compute_kl_loss { kl_type := "bogus" } (fun _ => []) [] []
        { activeAdapter := "default", log := [] }).1
        = Except.error TunerError.notImplementedError :=
  ⟨by decide,
   (unsupported_kl_type_raises_at_first_step { kl_type := "bogus" } (by decide)
      (fun _ => []) [] [] { activeAdapter := "default", log := [] }).1,
   (unsupported_kl_type_raises_at_first_step { kl_type := "bogus" } (by decide)
      (fun _ => []) [] [] { activeAdapter := "default", log := [] }).2⟩

/-- The state after the two gradient-enabled forward passes of a training
step (the parent's supervised forward and the confidence-query forward),
both on the currently active adapter. -/
def queryStepState (st : ModelState) : ModelState :=
  { st with log := (st.log ++ [MEvent.forwardPass st.activeAdapter true])
      ++ [MEvent.forwardPass st.activeAdapter true] }

lemma compute_loss_eq (args : TunerArgs) (q : QueryOutputs)
    (modelLogits : String → List (List (List ℝ)))
    (outputsLogits : List (List (List ℝ)))
    (labels : List (List Int)) (st : ModelState) :
    compute_loss args q modelLogits outputsLogits labels st
      = (match (if args.scale_temp then (Except.ok (0 : ℝ), queryStepState st)
               else compute_kl_loss args modelLogits outputsLogits labels (queryStepState st)) with
         | (Except.ok kl, st2) =>
             (Except.ok (compute_unc_loss args q + args.kl_decay * kl), st2)
         | (Except.error e, st2) => (Except.error e, st2)) := rfl

/-- C2 — The training-step loss composition: the confidence loss is the
label-smoothed cross entropy between the confidence-query logits restricted
to the query token vocabulary and the derived binary label; the total loss
returned by `compute_loss` is `unc_loss + kl_decay * kl_loss`; and when the
scale-temperature mode is active the consistency term is skipped entirely —
`compute_kl_loss` is never invoked, no reference-adapter forward pass
occurs, and the total equals the confidence loss alone. -/
theorem compute_loss_composition (args : TunerArgs) (q : QueryOutputs)
    (modelLogits : String → List (List (List ℝ)))
    (outputsLogits : List (List (List ℝ)))
    (labels : List (List Int)) (st : ModelState)
    (hdef : st.activeAdapter = "default")
    (href : args.ref_adapter_name ≠ "default") :
    compute_unc_loss args q
      = crossEntropy
          (q.unc_logits.map (fun row => q.query_token_vec.map row))
          (q.unc_y.map (derive_unc_label q.query_token_vec))
          args.unc_label_smoothing
    ∧ (compute_loss args q modelLogits outputsLogits labels st).1
        = (if args.scale_temp then Except.ok (0 : ℝ)
           else (compute_kl_loss args modelLogits outputsLogits labels
              (queryStepState st)).1).map
            (fun kl => compute_unc_loss args q + args.kl_decay * kl)
    ∧ (args.scale_temp = true →
        (compute_loss args q modelLogits outputsLogits labels st).1
            = Except.ok (compute_unc_loss args q)
        ∧ ∀ e ∈ (compute_loss args q modelLogits outputsLogits labels st).2.log.drop
              st.log.length, ∀ g, e ≠ MEvent.forwardPass args.ref_adapter_name g) := by
  refine ⟨rfl, ?_, ?_⟩
  · rw [compute_loss_eq]
    cases hs : args.scale_temp with
    | true =>
      simp only [hs, if_true]
      rfl
    | false =>
      simp only [hs, Bool.false_eq_true, if_false]
      rcases hkl : compute_kl_loss args modelLogits outputsLogits labels (queryStepState st)
        with ⟨res, st2⟩
      cases res <;> rfl
  · intro hs
    have h1 : (compute_loss args q modelLogits outputsLogits labels st).1
        = Except.ok (compute_unc_loss args q + args.kl_decay * 0) := by
      rw [compute_loss_eq, hs]
      rfl
    have h2 : (compute_loss args q modelLogits outputsLogits labels st).2
        = queryStepState st := by
      rw [compute_loss_eq, hs]
      rfl
    constructor
    · rw [h1, mul_zero, add_zero]
    · intro e he g
      rw [h2] at he
      simp only [queryStepState, hdef, List.append_assoc, List.singleton_append,
        List.cons_append, List.nil_append] at he
      rw [List.drop_left] at he
      rcases List.mem_cons.mp he with rfl | he'
      · intro heq
        have := (MEvent.forwardPass.injEq _ _ _ _).mp heq
        exact href this.1.symm
      · rcases List.mem_cons.mp he' with rfl | he''
        · intro heq
          have := (MEvent.forwardPass.injEq _ _ _ _).mp heq
          exact href this.1.symm
        · cases he''

/-- Witness for `compute_loss_composition` at a concrete configuration with
the scale-temperature mode active. -/
theorem compute_loss_composition_witness :
    (({ activeAdapter := "default", log := [] } : ModelState).activeAdapter = "default")
    ∧ (({ scale_temp := true } : TunerArgs).ref_adapter_name ≠ "default")
    ∧ (compute_loss { scale_temp := true } ⟨[], [], []⟩ (fun _ => []) [] []
        { activeAdapter := "default", log := [] }).1
        = Except.ok (compute_unc_loss { scale_temp := true } ⟨[], [], []⟩) :=
  ⟨rfl, by decide,
   ((compute_loss_composition { scale_temp := true } ⟨[], [], []⟩ (fun _ => []) [] []
      { activeAdapter := "default", log := [] } rfl (by decide)).2.2 rfl).1⟩


/- ------------------------------------------------------------------ -/
/- Checkpointing (`UncertaintyTuner._save` and
   `save_temperature_scaled_model`).                                   -/
/- ------------------------------------------------------------------ -/

/-- `TemperatureScaledLlamaForCausalLM.PARAMETER_NAME`. -/
def PARAMETER_NAME : String := "temperature"

/-- Does `pat` occur at the start of `s`? -/
def matchesAt : List Char → List Char → Bool
  | [], _ => true
  | _ :: _, [] => false
  | p :: ps, c :: cs => p == c && matchesAt ps cs

/-- Does `pat` occur as a contiguous run of `s`? -/
def containsSubChars (pat s : List Char) : Bool :=
  match s with
  | [] => pat.isEmpty
  | _ :: rest => matchesAt pat s || containsSubChars pat rest

/-- Python's substring test `pat in s`. -/
def containsSub (pat s : String) : Bool := containsSubChars pat.data s.data

/-- The writes `_save` performs, in order: the adapter-scoped
`save_pretrained`, the optional temperature weights file
(`temperature_adapter.bin`, with the state-dict keys it holds), the
tokenizer files, and the training arguments. -/
inductive SaveAction where
  | adapterSave (selected_adapters : List String)
  | tempSave (keys : List String)
  | tokenizerSave
  | trainingArgsSave
deriving DecidableEq

/-- `save_temperature_scaled_model`: filter the model's state dict down to
the entries whose name contains the temperature parameter name; when none
is found, log a warning and skip the save entirely; otherwise write the
weights file holding exactly the filtered entries. -/
def save_temperature_scaled_model (stateKeys : List String) : List SaveAction :=
  let sd := stateKeys.filter (fun k => containsSub PARAMETER_NAME k)
  if sd.isEmpty then [] else [SaveAction.tempSave sd]

/-- `UncertaintyTuner._save`: `save_pretrained` scoped to
`selected_adapters=["default"]`, then — only when `scale_temp` is set —
`save_temperature_scaled_model`, then the tokenizer files (when a
tokenizer is present) and `torch.save` of the training arguments. -/
def tunerSave (scale_temp : Bool) (hasTokenizer : Bool) (stateKeys : List String) :
    List SaveAction :=
  [SaveAction.adapterSave ["default"]]
    ++ (if scale_temp then save_temperature_scaled_model stateKeys else [])
    ++ (if hasTokenizer then [SaveAction.tokenizerSave] else [])
    ++ [SaveAction.trainingArgsSave]

lemma mem_save_temp (a : SaveAction) (stateKeys : List String) :
    a ∈ save_temperature_scaled_model stateKeys ↔
      (stateKeys.filter (fun k => containsSub PARAMETER_NAME k) ≠ []
        ∧ a = SaveAction.tempSave
            (stateKeys.filter (fun k => containsSub PARAMETER_NAME k))) := by
  unfold save_temperature_scaled_model
  cases hl : stateKeys.filter (fun k => containsSub PARAMETER_NAME k) with
  | nil => simp [hl]
  | cons x xs => simp [hl]

lemma mem_tunerSave (a : SaveAction) (scale_temp hasTok : Bool) (stateKeys : List String) :
    a ∈ tunerSave scale_temp hasTok stateKeys ↔
      a = SaveAction.adapterSave ["default"]
      ∨ (scale_temp = true ∧ a ∈ save_temperature_scaled_model stateKeys)
      ∨ (hasTok = true ∧ a = SaveAction.tokenizerSave)
      ∨ a = SaveAction.trainingArgsSave := by
  unfold tunerSave
  cases scale_temp <;> cases hasTok <;> simp [List.mem_append]

/-- C8 (counterexample) — With temperature scaling enabled but a model
whose state dict holds no entry named after the temperature parameter,
`_save` writes no temperature weights file at all (the save is skipped
with a warning), refuting "exactly when temperature scaling is enabled,
writes a separate small weights file". -/
theorem tuner_save_counterexample :
    tunerSave true true ["base_model.weight"]
      = [SaveAction.adapterSave ["default"], SaveAction.tokenizerSave,
         SaveAction.trainingArgsSave] := by decide

/-- C8 (amended) — Every save writes only the "default" adapter through the
adapter-scoped save; any temperature weights file written holds exactly the
state-dict entries whose name contains the temperature parameter name and
is written only when `scale_temp` is enabled; and such a file is written
exactly when `scale_temp` is enabled and at least one such entry exists
(otherwise the temperature save is skipped with a warning). -/
theorem tuner_save_scope (scale_temp hasTok : Bool) (stateKeys : List String) :
    (∀ sel, SaveAction.adapterSave sel ∈ tunerSave scale_temp hasTok stateKeys →
        sel = ["default"])
    ∧ (∀ ks, SaveAction.tempSave ks ∈ tunerSave scale_temp hasTok stateKeys →
        scale_temp = true
        ∧ ks = stateKeys.filter (fun k => containsSub PARAMETER_NAME k)
        ∧ ∀ k ∈ ks, containsSub PARAMETER_NAME k = true)
    ∧ ((scale_temp = true
          ∧ stateKeys.filter (fun k => containsSub PARAMETER_NAME k) ≠ []) →
        SaveAction.tempSave (stateKeys.filter (fun k => containsSub PARAMETER_NAME k))
          ∈ tunerSave scale_temp hasTok stateKeys) := by
  refine ⟨?_, ?_, ?_⟩
  · intro sel hsel
    rw [mem_tunerSave] at hsel
    rcases hsel with h | ⟨_, h⟩ | ⟨_, h⟩ | h
    · exact ((SaveAction.adapterSave.injEq _ _).mp h)
    · rcases (mem_save_temp _ _).mp h with ⟨_, h'⟩
      cases h'
    · cases h
    · cases h
  · intro ks hks
    rw [mem_tunerSave] at hks
    rcases hks with h | ⟨hs, h⟩ | ⟨_, h⟩ | h
    · cases h
    · rcases (mem_save_temp _ _).mp h with ⟨_, h'⟩
      have hkeq := (SaveAction.tempSave.injEq _ _).mp h'
      subst hkeq
      refine ⟨hs, rfl, ?_⟩
      intro k hk
      exact List.of_mem_filter hk
    · cases h
    · cases h
  · rintro ⟨h1, h2⟩
    rw [mem_tunerSave]
    exact Or.inr (Or.inl ⟨h1, (mem_save_temp _ _).mpr ⟨h2, rfl⟩⟩)

/-- Witness for `tuner_save_scope` at a state dict containing a
temperature-named entry. -/
theorem tuner_save_scope_witness :
    (true = true
      ∧ (["model.temperature"].filter (fun k => containsSub PARAMETER_NAME k)) ≠ [])
    ∧ SaveAction.tempSave
          (["model.temperature"].filter (fun k => containsSub PARAMETER_NAME k))
        ∈ tunerSave true true ["model.temperature"] :=
  ⟨⟨rfl, by decide⟩,
   (tuner_save_scope true true ["model.temperature"]).2.2 ⟨rfl, by decide⟩⟩

/- ------------------------------------------------------------------ -/
/- Evaluation metrics (`llm/eval/eos.py`, `evaluate_via_eos`).         -/
/- ------------------------------------------------------------------ -/

/-- The error the metric stage can encounter: sklearn's `ValueError`. -/
inductive EvalError where
  | valueError
deriving DecidableEq

/-- Are all labels of a single class? -/
def allSameClass (labels : List Nat) : Bool :=
  match labels with
  | [] => true
  | x :: xs => xs.all (fun y => y == x)

/-- The sklearn `roc_auc_score` collaborator: raises `ValueError` when only
one class is present in the labels; otherwise produces the score through
the abstract `aurocFn`. -/
noncomputable def roc_auc_score (aurocFn : List Nat → List ℝ → ℝ)
    (labels : List Nat) (scores : List ℝ) : Except EvalError ℝ :=
  if allSameClass labels then Except.error EvalError.valueError
  else Except.ok (aurocFn labels scores)

/-- The metrics dictionary `evaluate_via_eos` returns; `unc_auroc = none`
models the NaN sentinel. -/
structure EosMetrics where
  N : Nat
  logits_ece : ℝ
  acc : ℝ
  unc_acc : ℝ
  unc_auroc : Option ℝ
  unc_ece : ℝ

/-- Accuracy `(preds == labels).float().mean()`. -/
noncomputable def accValue (preds labels : List Nat) : ℝ :=
  meanR (List.zipWith (fun a b => if a = b then (1 : ℝ) else 0) preds labels)

/-- The confidence assigned to each greedy prediction:
`p[arange(N), pred]`. -/
noncomputable def predConf (probs : List (List ℝ)) : List ℝ :=
  probs.map (fun row => row.getD (idxOfMax row) 0)

/-- The metric-assembly tail of `evaluate_via_eos` (lines after the
gather): greedy predictions and accuracy over the primary answers,
calibration through the third-party `calibration` collaborator `calibFn`,
the same for the confidence query, and AUROC over the query labels and
self-reported confidences guarded by `try/except ValueError`: on failure a
warning is logged and the NaN sentinel (`none`) is reported in
`unc_auroc`, while every other metric is still computed and the whole
dictionary is returned. -/
noncomputable def eosMetricsTail
    (calibFn : List Nat → List Nat → List ℝ → ℝ)
    (aurocFn : List Nat → List ℝ → ℝ)
    (all_labels : List Nat) (all_p : List (List ℝ))
    (all_q_labels : List Nat) (all_q_p : List (List ℝ)) :
    Except EvalError (EosMetrics × List String) :=
  let all_pred := all_p.map idxOfMax
  let acc := accValue all_pred all_labels
  let logits_ece := calibFn all_labels all_pred (predConf all_p)
  let all_q_pred := all_q_p.map idxOfMax
  let q_acc := accValue all_q_pred all_q_labels
  let q_ece := calibFn all_q_labels all_q_pred (predConf all_q_p)
  let recovered :=
    match roc_auc_score aurocFn all_q_labels (predConf all_q_p) with
    | Except.ok v => (some v, ([] : List String))
    | Except.error _ => (none, ["AUROC calculation failed."])
  Except.ok
    ({ N := all_q_labels.length, logits_ece := logits_ece, acc := acc
     , unc_acc := q_acc, unc_auroc := recovered.1, unc_ece := q_ece }, recovered.2)

/-- C5 — When the confidence-query labels are all of one class, the AUROC
computation fails with a `ValueError` that is recovered locally: a warning
is logged, `unc_auroc` is reported as the NaN sentinel, and the evaluation
pass does not abort — the full metrics dictionary is still returned with
every other metric computed as usual. -/
theorem auroc_failure_recovered
    (calibFn : List Nat → List Nat → List ℝ → ℝ)
    (aurocFn : List Nat → List ℝ → ℝ)
    (all_labels : List Nat) (all_p : List (List ℝ))
    (all_q_labels : List Nat) (all_q_p : List (List ℝ))
    (h : allSameClass all_q_labels = true) :
    eosMetricsTail calibFn aurocFn all_labels all_p all_q_labels all_q_p
      = Except.ok
          ({ N := all_q_labels.length
           , logits_ece := calibFn all_labels (all_p.map idxOfMax) (predConf all_p)
           , acc := accValue (all_p.map idxOfMax) all_labels
           , unc_acc := accValue (all_q_p.map idxOfMax) all_q_labels
           , unc_auroc := none
           , unc_ece := calibFn all_q_labels (all_q_p.map idxOfMax) (predConf all_q_p) },
           ["AUROC calculation failed."]) := by
  simp only [eosMetricsTail, roc_auc_score, h, if_true]

/-- Witness for `auroc_failure_recovered`: two query labels of the same
class. -/
theorem auroc_failure_recovered_witness :
    allSameClass [1, 1] = true
    ∧ eosMetricsTail (fun _ _ _ => 0) (fun _ _ => 0) [0] [[1, 0]] [1, 1]
        [[0, 1], [0, 1]]
      = Except.ok
          ({ N := ([1, 1] : List Nat).length
           , logits_ece := 0
           , acc := accValue (([[1, 0]] : List (List ℝ)).map idxOfMax) [0]
           , unc_acc := accValue (([[0, 1], [0, 1]] : List (List ℝ)).map idxOfMax) [1, 1]
           , unc_auroc := none
           , unc_ece := 0 },
           ["AUROC calculation failed."]) :=
  ⟨by decide,
   auroc_failure_recovered (fun _ _ _ => 0) (fun _ _ => 0) [0] [[1, 0]] [1, 1]
     [[0, 1], [0, 1]] (by decide)⟩

/- ------------------------------------------------------------------ -/
/- `evaluate_dataset` (`llm/utils/evaluation.py`).                     -/
/- ------------------------------------------------------------------ -/

/-- Observable data-access steps of `evaluate_dataset`. -/
inductive DsEvent where
  | getDataset (name : String)
  | getLoader
  | runEvaluation
deriving DecidableEq

/-- `evaluate_dataset`: `assert batch_size == 1` is the first statement;
when `dataset` is given, its splits are loaded from the registry
collaborator `registry` (overriding `val_data`/`test_data`); otherwise
`assert (val_data is not None) or (test_data is not None)`; afterwards each
present split is evaluated (loader construction and the `evaluate_via_eos`
pass are logged as events; the metric values belong to the evaluation
collaborator and are represented by the split tags). -/
def evaluate_dataset (registry : String → Option Nat × Option Nat)
    (dataset : Option String) (val_data test_data : Option Nat)
    (batch_size : Nat) :
    Except String (Option String × Option String) × List DsEvent :=
  if batch_size ≠ 1 then
    (Except.error "Only support batch_size 1. See code comments.", [])
  else
    match dataset with
    | some name =>
      let vt := registry name
      let valEvents := if vt.1.isSome then [DsEvent.getLoader, DsEvent.runEvaluation] else []
      let testEvents := if vt.2.isSome then [DsEvent.getLoader, DsEvent.runEvaluation] else []
      (Except.ok (vt.1.map (fun _ => "validation"), vt.2.map (fun _ => "test")),
        DsEvent.getDataset name :: (valEvents ++ testEvents))
    | none =>
      if val_data.isNone && test_data.isNone then
        (Except.error "Missing val_data or test_data.", [])
      else
        let valEvents := if val_data.isSome then [DsEvent.getLoader, DsEvent.runEvaluation] else []
        let testEvents := if test_data.isSome then [DsEvent.getLoader, DsEvent.runEvaluation] else []
        (Except.ok (val_data.map (fun _ => "validation"), test_data.map (fun _ => "test")),
          valEvents ++ testEvents)

/-- C10 — `evaluate_dataset` rejects every batch size other than 1 with an
`AssertionError` before loading any data or running any evaluation (the
event log stays empty); and with `batch_size = 1` it likewise raises an
`AssertionError` when `dataset` is `None` and both `val_data` and
`test_data` are `None`. -/
theorem evaluate_dataset_asserts (registry : String → Option Nat × Option Nat)
    (dataset : Option String) (val_data test_data : Option Nat) (batch_size : Nat) :
    (batch_size ≠ 1 →
      evaluate_dataset registry dataset val_data test_data batch_size
        = (Except.error "Only support batch_size 1. See code comments.", []))
    ∧ (batch_size = 1 → dataset = none → val_data = none → test_data = none →
      evaluate_dataset registry dataset val_data test_data batch_size
        = (Except.error "Missing val_data or test_data.", [])) := by
  constructor
  · intro h
    rw [evaluate_dataset.eq_def, if_pos h]
  · intro h1 h2 h3 h4
    subst h1; subst h2; subst h3; subst h4
    rfl

/-- Witness for `evaluate_dataset_asserts` at `batch_size = 2` (first
assertion) and at `batch_size = 1` with no dataset and no splits (second
assertion). -/
theorem evaluate_dataset_asserts_witness :
    ((2 : Nat) ≠ 1
      ∧ evaluate_dataset (fun _ => (none, none)) none none none 2
          = (Except.error "Only support batch_size 1. See code comments.", []))
    ∧ evaluate_dataset (fun _ => (none, none)) none none none 1
        = (Except.error "Missing val_data or test_data.", []) :=
  ⟨⟨by decide,
    (evaluate_dataset_asserts (fun _ => (none, none)) none none none 2).1 (by decide)⟩,
   (evaluate_dataset_asserts (fun _ => (none, none)) none none none 1).2 rfl rfl rfl rfl⟩
